import Mathlib

/-!
Verification of the annotated LevelDB sources (`util/bloom.cc`, `db/builder.cc`,
`db/db_impl.h`) against their natural-language specification.

The C++ sources are shallowly embedded: byte strings become `List Nat`,
`uint32_t` arithmetic is `Nat` arithmetic reduced modulo `2 ^ 32` at every
point where the machine word wraps, and the external collaborators of the
coordinator (environment, table builder, table cache, iterators) appear as
explicit status/outcome parameters, exactly as they appear to the embedded
functions through their interfaces.
-/

namespace LevelDB

/-- Outcome of a fallible operation: `leveldb::Status`.  Distinct error
causes are distinguished by a numeric code. -/
inductive Status where
  | ok : Status
  | err : Nat → Status
deriving DecidableEq

/-- Status.ok() of the C++ API. -/
def Status.isOk : Status → Bool
  | .ok => true
  | .err _ => false

/-- A key (or value) is an opaque byte string. -/
abbrev Key := List Nat

/-! ## util/bloom.cc

`BloomFilterPolicy` with its two methods `CreateFilter` and `KeyMayMatch`.
The hash function `BloomHash` (util/hash.cc, an external collaborator of this
file) enters as an explicit parameter `bloomHash`; its `uint32_t` result is
normalised with `% 2 ^ 32`.  All theorems below hold for every hash function,
in particular for the concrete one used by the C++ code. -/

/-- The `BloomFilterPolicy` object: its only constructor argument. -/
structure BloomFilterPolicy where
  bits_per_key : Nat
deriving DecidableEq

/-- Member `k_` as computed by the constructor:
`k_ = bits_per_key * 0.69` truncated, then clamped into `[1, 30]`.
The double multiplication `bits_per_key * 0.69` truncates to
`bits_per_key * 69 / 100` for every `bits_per_key` whose clamped result is
below the upper clamp (the two computations can only disagree by one unit
when `69 * bits_per_key / 100 ≥ 31`, where both clamp to `30`), so the exact
rational computation is used here. -/
def BloomFilterPolicy.k_ (p : BloomFilterPolicy) : Nat :=
  let k0 := p.bits_per_key * 69 / 100
  let k1 := if k0 < 1 then 1 else k0
  if k1 > 30 then 30 else k1

/-- The rotation `delta = (h >> 17) | (h << 15)` on `uint32_t`. -/
def bloomDelta (h : Nat) : Nat :=
  (h >>> 17) ||| ((h <<< 15) % 2 ^ 32)

/-- Inner probe loop of `CreateFilter` (`for j in 0..k_`): sets bit
`h % bits` of the bitmap that starts at byte offset `off` of `d`, then
advances `h` by `delta` (mod `2 ^ 32`).  The first argument is the number
of remaining iterations. -/
def CreateFilterLoopJ (bits off : Nat) : Nat → Nat → Nat → List Nat → List Nat
  | 0, _h, _delta, d => d
  | j + 1, h, delta, d =>
      let bitpos := h % bits
      let idx := off + bitpos / 8
      CreateFilterLoopJ bits off j ((h + delta) % 2 ^ 32) delta
        (d.set idx (d.getD idx 0 ||| (1 <<< (bitpos % 8))))

/-- Body of the outer key loop of `CreateFilter`: hash the key and run the
probe loop `k` times. -/
def CreateFilterAddKey (bloomHash : Key → Nat) (k bits off : Nat)
    (d : List Nat) (key : Key) : List Nat :=
  let h := bloomHash key % 2 ^ 32
  CreateFilterLoopJ bits off k h (bloomDelta h) d

/-- `BloomFilterPolicy::CreateFilter(keys, n, dst)`: append a bitmap of
`bytes` zero bytes and the probe count `k_` to `dst`, then set the probed
bits of every key.  `n` is `keys.length`. -/
def CreateFilter (p : BloomFilterPolicy) (bloomHash : Key → Nat)
    (keys : List Key) (dst : List Nat) : List Nat :=
  let bits0 := keys.length * p.bits_per_key
  let bits1 := if bits0 < 64 then 64 else bits0
  let bytes := (bits1 + 7) / 8
  let bits := bytes * 8
  let init_size := dst.length
  keys.foldl (CreateFilterAddKey bloomHash p.k_ bits init_size)
    (dst ++ List.replicate bytes 0 ++ [p.k_])

/-- Probe loop of `KeyMayMatch`: `false` as soon as a probed bit is unset. -/
def KeyMayMatchLoop (bits : Nat) (arr : List Nat) : Nat → Nat → Nat → Bool
  | 0, _h, _delta => true
  | j + 1, h, delta =>
      let bitpos := h % bits
      if arr.getD (bitpos / 8) 0 &&& (1 <<< (bitpos % 8)) == 0 then false
      else KeyMayMatchLoop bits arr j ((h + delta) % 2 ^ 32) delta

/-- `BloomFilterPolicy::KeyMayMatch(key, bloom_filter)`. -/
def KeyMayMatch (bloomHash : Key → Nat) (key : Key) (bloom_filter : List Nat) : Bool :=
  let len := bloom_filter.length
  if len < 2 then false
  else
    let bits := (len - 1) * 8
    let k := bloom_filter.getD (len - 1) 0
    if k > 30 then true
    else
      let h := bloomHash key % 2 ^ 32
      KeyMayMatchLoop bits bloom_filter k h (bloomDelta h)

/-- The sequence of bit positions probed for one key (shared by filter
creation and lookup: both start from the same hash and delta). -/
def probePositions (bits : Nat) : Nat → Nat → Nat → List Nat
  | 0, _h, _delta => []
  | j + 1, h, delta => h % bits :: probePositions bits j ((h + delta) % 2 ^ 32) delta

/-- Bit `pos % 8` of byte `pos / 8` of the bitmap starting at offset `off`. -/
def bitmapBit (arr : List Nat) (off pos : Nat) : Bool :=
  (arr.getD (off + pos / 8) 0).testBit (pos % 8)

/-! ## db/builder.cc

`BuildTable(dbname, env, options, table_cache, iter, meta)`.  The input
iterator is embedded as the list of entries it yields in order plus its
final status (`iter->status()`); the external collaborators are embedded by
the statuses and sizes their calls return: `env->NewWritableFile`,
`builder->Finish`, `builder->FileSize`, `file->Sync`, `file->Close` and the
status of the validation iterator obtained from
`table_cache->NewIterator`.  The result records the returned status, the
updated `FileMetaData`, and which side effects happened (builder creation,
`Sync`, `Close`, validation, `env->DeleteFile(fname)`). -/

/-- Entry of `leveldb::FileMetaData` as used by `BuildTable`. -/
structure FileMetaData where
  number : Nat
  file_size : Nat
  smallest : Option Key
  largest : Option Key
deriving DecidableEq

/-- The input iterator of `BuildTable`: the `(key, value)` entries it
yields from `SeekToFirst` on, in order, and its final status. -/
structure InputIter where
  entries : List (Key × Key)
  finalStatus : Status
deriving DecidableEq

/-- Return values of the external collaborator calls made by `BuildTable`,
in the order the code can make them. -/
structure BuildEnv where
  newFileStatus : Status
  finishStatus : Status
  builderFileSize : Nat
  syncStatus : Status
  closeStatus : Status
  tableIterStatus : Status
deriving DecidableEq

/-- Result of `BuildTable`: the returned status, the output `meta`, and
which effects occurred. -/
structure BuildResult where
  status : Status
  meta : FileMetaData
  builderCreated : Bool
  syncCalled : Bool
  closeCalled : Bool
  validateCalled : Bool
  fileDeleted : Bool
deriving DecidableEq

/-- Shallow embedding of `BuildTable` (db/builder.cc lines 17-96).
`meta->file_size = 0`; `iter->SeekToFirst()`; if the iterator is valid,
create the file (early return on failure), record `smallest` from the first
key, fold over the entries recording `largest`, then `Finish`/`FileSize`,
`Sync`, `Close`, validate through the table cache; finally override the
status with a non-ok iterator status and delete the file unless
`s.ok() && meta->file_size > 0`. -/
def BuildTable (env : BuildEnv) (iter : InputIter) (meta0 : FileMetaData) : BuildResult :=
  let meta : FileMetaData := { meta0 with file_size := 0 }
  if iter.entries.isEmpty then
    let s := if iter.finalStatus.isOk then Status.ok else iter.finalStatus
    let keep := s.isOk && decide (0 < meta.file_size)
    { status := s, meta := meta, builderCreated := false, syncCalled := false,
      closeCalled := false, validateCalled := false, fileDeleted := !keep }
  else
    match env.newFileStatus with
    | .err e =>
        { status := .err e, meta := meta, builderCreated := false,
          syncCalled := false, closeCalled := false, validateCalled := false,
          fileDeleted := false }
    | .ok =>
        let meta : FileMetaData := { meta with smallest := iter.entries.head?.map Prod.fst }
        let meta : FileMetaData :=
          { meta with largest := iter.entries.foldl (fun _ kv => some kv.fst) meta.largest }
        let s := env.finishStatus
        let meta : FileMetaData :=
          if s.isOk then { meta with file_size := env.builderFileSize } else meta
        let syncCalled := s.isOk
        let s := if s.isOk then env.syncStatus else s
        let closeCalled := s.isOk
        let s := if s.isOk then env.closeStatus else s
        let validateCalled := s.isOk
        let s := if s.isOk then env.tableIterStatus else s
        let s := if iter.finalStatus.isOk then s else iter.finalStatus
        let keep := s.isOk && decide (0 < meta.file_size)
        { status := s, meta := meta, builderCreated := true, syncCalled := syncCalled,
          closeCalled := closeCalled, validateCalled := validateCalled,
          fileDeleted := !keep }

/-- Bytewise comparison of keys, as `BytewiseComparator` orders user keys. -/
def lexLe : Key → Key → Bool
  | [], _ => true
  | _ :: _, [] => false
  | a :: as, b :: bs => if a < b then true else if b < a then false else lexLe as bs

/-- The entries of the input iterator are in ascending key order. -/
def ascendingEntries : List (Key × Key) → Bool
  | [] => true
  | [_] => true
  | a :: b :: rest => lexLe a.1 b.1 && ascendingEntries (b :: rest)

/-! ## db/db_impl.h coordinator

Only the declarations of `DBImpl` are under src/ (db_impl.cc is not), so the
bodies of `MakeRoomForWrite`, `CompactMemTable` and
`MaybeScheduleCompaction` are modelled from the specification (spec.md
sections 4.2, 4.3, 5 and the header comments of db_impl.h), faithful to the
spec's words. -/

/-- Spec constant `kL0_SlowdownWritesTrigger` (8). -/
def kL0_SlowdownWritesTrigger : Nat := 8

/-- Spec constant `kL0_StopWritesTrigger` (12). -/
def kL0_StopWritesTrigger : Nat := 12

/-- What one iteration of the `MakeRoomForWrite` loop observes of the
coordinator and collaborator state (the background thread may change it
between iterations): the recorded background error, whether the memtable
has room, the level-0 file count, and whether `imm` is still being
flushed. -/
structure RoomObs where
  bgError : Status
  memHasRoom : Bool
  l0Count : Nat
  immPending : Bool
deriving DecidableEq

/-- How `MakeRoomForWrite` ends: with an error, with OK, or still looping
when the observation stream runs out. -/
inductive RoomOutcome where
  | err : Status → RoomOutcome
  | ok : RoomOutcome
  | pending : RoomOutcome
deriving DecidableEq

/-- Modelled from the spec: the loop of `DBImpl::MakeRoomForWrite`
(db_impl.cc is not under src/; spec.md section 4.2 gives the loop table).
Per iteration, in order: a recorded background error returns that error;
`!force` with room in the memtable returns OK; at least
`kL0_SlowdownWritesTrigger` level-0 files and not yet delayed sleeps one
millisecond (counted) and sets the delay flag; a pending `imm` or at least
`kL0_StopWritesTrigger` level-0 files waits; otherwise the WAL is rolled,
the memtable switched and `force` cleared.  Returns the outcome and the
number of sleeps taken. -/
def MakeRoomForWriteLoop : Bool → Bool → Nat → List RoomObs → RoomOutcome × Nat
  | _force, _delayed, sleeps, [] => (.pending, sleeps)
  | force, delayed, sleeps, obs :: rest =>
      if !obs.bgError.isOk then (.err obs.bgError, sleeps)
      else if !force && obs.memHasRoom then (.ok, sleeps)
      else if decide (kL0_SlowdownWritesTrigger ≤ obs.l0Count) && !delayed then
        MakeRoomForWriteLoop force true (sleeps + 1) rest
      else if obs.immPending then
        MakeRoomForWriteLoop force delayed sleeps rest
      else if decide (kL0_StopWritesTrigger ≤ obs.l0Count) then
        MakeRoomForWriteLoop force delayed sleeps rest
      else
        MakeRoomForWriteLoop false delayed sleeps rest

/-- Modelled from the spec: `DBImpl::MakeRoomForWrite` starts its loop with
the delay flag clear and no sleep taken. -/
def MakeRoomForWrite (force : Bool) (obsList : List RoomObs) : RoomOutcome × Nat :=
  MakeRoomForWriteLoop force false 0 obsList

/-- The coordinator state touched by `CompactMemTable`: whether `imm_` is
non-null, the current WAL number, the `log_number` values recorded by
descriptor (version-edit) writes, whether obsolete files were deleted, and
the latched background error `bg_error_`. -/
structure CoordState where
  imm : Bool
  logfile_number : Nat
  descriptorLogNumbers : List Nat
  obsoleteFilesDeleted : Bool
  bg_error_ : Status
deriving DecidableEq

/-- Modelled from the spec: `DBImpl::CompactMemTable` (db_impl.cc is not
under src/; spec.md section 4.3 and the header comment at db_impl.h:89-96).
Requires `imm_ != nullptr`.  The combined outcome of flushing `imm` and
applying the version edit is the parameter `s`.  Iff it is OK the
coordinator switches to the new log-file/memtable pair (sets `log_number`
to `newLogNumber`, clears `imm`), writes a new descriptor recording that
log number, and deletes obsolete files; on failure the status is recorded
in `bg_error_`. -/
def CompactMemTable (st : CoordState) (newLogNumber : Nat) (s : Status) : CoordState :=
  if !st.imm then st
  else if s.isOk then
    { st with
      imm := false,
      logfile_number := newLogNumber,
      descriptorLogNumbers := st.descriptorLogNumbers ++ [newLogNumber],
      obsoleteFilesDeleted := true }
  else
    { st with bg_error_ := s }

/-- The coordinator state consulted by `MaybeScheduleCompaction`, plus a
count of background worker tasks currently scheduled or running (the
quantity the flag `background_compaction_scheduled_` is meant to bound). -/
structure SchedState where
  background_compaction_scheduled_ : Bool
  tasksInFlight : Nat
  imm : Bool
  manual_compaction_ : Bool
  versionNeedsCompaction : Bool
  shutting_down_ : Bool
deriving DecidableEq

/-- Work exists for the background worker: `imm` non-null, a pending manual
compaction, or the current version needs compaction. -/
def hasCompactionWork (st : SchedState) : Bool :=
  st.imm || st.manual_compaction_ || st.versionNeedsCompaction

/-- Modelled from the spec: `DBImpl::MaybeScheduleCompaction` (db_impl.cc
is not under src/; spec.md section 5: only schedules when work exists and
none is pending, with `shutting_down_` polled).  Scheduling sets the flag
and hands one task to the background worker. -/
def MaybeScheduleCompaction (st : SchedState) : SchedState :=
  if st.background_compaction_scheduled_ then st
  else if st.shutting_down_ then st
  else if !hasCompactionWork st then st
  else
    { st with
      background_compaction_scheduled_ := true,
      tasksInFlight := st.tasksInFlight + 1 }

/-- Modelled from the spec: the tail of `DBImpl::BackgroundCall` (db_impl.cc
is not under src/): when the scheduled task finishes, the worker clears
`background_compaction_scheduled_`, may have changed the work predicates,
and calls `MaybeScheduleCompaction` again. -/
def BackgroundCallFinish (st : SchedState)
    (immAfter manualAfter needsAfter : Bool) : SchedState :=
  if st.background_compaction_scheduled_ then
    MaybeScheduleCompaction
      { st with
        background_compaction_scheduled_ := false,
        tasksInFlight := st.tasksInFlight - 1,
        imm := immAfter, manual_compaction_ := manualAfter,
        versionNeedsCompaction := needsAfter }
  else st

/-- Events that drive the scheduling state of the coordinator. -/
inductive SchedEvent where
  | maybeSchedule : SchedEvent
  | finishBackgroundWork : Bool → Bool → Bool → SchedEvent
  | setWork : Bool → Bool → Bool → SchedEvent
  | beginShutdown : SchedEvent

/-- Modelled from the spec: one coordinator transition under `mutex_`.
Foreground threads may call `MaybeScheduleCompaction`, change the work
predicates (seal a memtable, request a manual compaction), or begin
shutdown; the background worker finishes its task. -/
def schedStep (st : SchedState) : SchedEvent → SchedState
  | .maybeSchedule => MaybeScheduleCompaction st
  | .finishBackgroundWork i m n => BackgroundCallFinish st i m n
  | .setWork i m n =>
      { st with imm := i, manual_compaction_ := m, versionNeedsCompaction := n }
  | .beginShutdown => { st with shutting_down_ := true }

/-- The coordinator starts with no task scheduled and no work. -/
def initSchedState : SchedState :=
  ⟨false, 0, false, false, false, false⟩

/-- Coordinator scheduling states reachable from the initial state. -/
inductive SchedReachable : SchedState → Prop where
  | init : SchedReachable initSchedState
  | step (st : SchedState) (e : SchedEvent) :
      SchedReachable st → SchedReachable (schedStep st e)

/-! ### Concrete inputs used by witness theorems -/

/-- A concrete hash function used to instantiate witness theorems; the
claim theorems hold for every hash function. -/
def wHash : Key → Nat :=
  fun k => k.foldl (fun a c => a * 131 + c) 17

/-- Collaborator outcomes where every call succeeds. -/
def wEnvOk : BuildEnv := ⟨.ok, .ok, 42, .ok, .ok, .ok⟩

/-- Collaborator outcomes where `file->Sync()` fails. -/
def wEnvSyncErr : BuildEnv := ⟨.ok, .ok, 42, .err 3, .ok, .ok⟩

/-- Collaborator outcomes where the validation iterator carries an error. -/
def wEnvValidateErr : BuildEnv := ⟨.ok, .ok, 42, .ok, .ok, .err 4⟩

/-- A two-entry ascending input iterator with ok status. -/
def wIter : InputIter := ⟨[([1], [10]), ([2], [20])], .ok⟩

/-- An empty input iterator with ok status. -/
def wIterEmpty : InputIter := ⟨[], .ok⟩

/-- An initial `FileMetaData` for file number 7. -/
def wMeta : FileMetaData := ⟨7, 0, none, none⟩

/-- A coordinator state with a sealed memtable awaiting flush. -/
def wCoordState : CoordState := ⟨true, 5, [], false, .ok⟩

/-! ### Bloom filter lemmas -/

theorem and_one_shiftLeft_beq_zero (x m : Nat) :
    (x &&& (1 <<< m) == 0) = !x.testBit m := by
  rw [Nat.one_shiftLeft, Nat.and_two_pow]
  cases h : x.testBit m <;> simp [h]

theorem getD_set_of_ne (l : List Nat) (i j v : Nat) (h : i ≠ j) :
    (l.set i v).getD j 0 = l.getD j 0 := by
  simp [List.getD, List.getElem?_set_ne h]

theorem getD_set_self (l : List Nat) (i v : Nat) (h : i < l.length) :
    (l.set i v).getD i 0 = v := by
  simp [List.getD, List.getElem?_set_eq_of_lt v h]

theorem length_CreateFilterLoopJ (bits off : Nat) (j : Nat) :
    ∀ (h delta : Nat) (d : List Nat),
      (CreateFilterLoopJ bits off j h delta d).length = d.length := by
  induction j with
  | zero => intro h delta d; rfl
  | succ j ih => intro h delta d; rw [CreateFilterLoopJ, ih]; simp

theorem length_foldl_CreateFilterAddKey (bloomHash : Key → Nat) (k bits off : Nat)
    (keys : List Key) : ∀ d : List Nat,
    (keys.foldl (CreateFilterAddKey bloomHash k bits off) d).length = d.length := by
  induction keys with
  | nil => intro d; rfl
  | cons key keys ih =>
      intro d
      rw [List.foldl_cons, ih, CreateFilterAddKey, length_CreateFilterLoopJ]

theorem bitmapBit_set_or (d : List Nat) (idx v off pos : Nat)
    (hb : bitmapBit d off pos = true) :
    bitmapBit (d.set idx (d.getD idx 0 ||| v)) off pos = true := by
  unfold bitmapBit at hb ⊢
  by_cases hij : idx = off + pos / 8
  · rw [← hij] at hb ⊢
    by_cases hlt : idx < d.length
    · rw [getD_set_self _ _ _ hlt, Nat.testBit_lor, hb]
      rfl
    · rw [List.set_eq_of_length_le (Nat.le_of_not_lt hlt)]
      exact hb
  · rw [getD_set_of_ne _ _ _ _ hij]
    exact hb

theorem bitmapBit_CreateFilterLoopJ_mono (bits off : Nat) (j : Nat) :
    ∀ (h delta : Nat) (d : List Nat) (pos : Nat),
      bitmapBit d off pos = true →
      bitmapBit (CreateFilterLoopJ bits off j h delta d) off pos = true := by
  induction j with
  | zero => intro h delta d pos hb; exact hb
  | succ j ih =>
      intro h delta d pos hb
      rw [CreateFilterLoopJ]
      exact ih _ _ _ _ (bitmapBit_set_or _ _ _ _ _ hb)

theorem bitmapBit_foldl_CreateFilterAddKey_mono (bloomHash : Key → Nat)
    (k bits off : Nat) (keys : List Key) :
    ∀ (d : List Nat) (pos : Nat),
      bitmapBit d off pos = true →
      bitmapBit (keys.foldl (CreateFilterAddKey bloomHash k bits off) d) off pos = true := by
  induction keys with
  | nil => intro d pos hb; exact hb
  | cons key keys ih =>
      intro d pos hb
      rw [List.foldl_cons]
      exact ih _ _ (bitmapBit_CreateFilterLoopJ_mono _ _ _ _ _ _ _ hb)

theorem CreateFilterLoopJ_sets (bits off : Nat) (hbits : 0 < bits) (j : Nat) :
    ∀ (h delta : Nat) (d : List Nat),
      (∀ q, q < bits → off + q / 8 < d.length) →
      ∀ pos ∈ probePositions bits j h delta,
        bitmapBit (CreateFilterLoopJ bits off j h delta d) off pos = true := by
  induction j with
  | zero => intro h delta d _ pos hpos; cases hpos
  | succ j ih =>
      intro h delta d hlen pos hpos
      rw [probePositions] at hpos
      rw [CreateFilterLoopJ]
      rcases List.mem_cons.mp hpos with hpos | hpos
      · subst hpos
        apply bitmapBit_CreateFilterLoopJ_mono
        have hvalid : off + h % bits / 8 < d.length :=
          hlen _ (Nat.mod_lt _ hbits)
        unfold bitmapBit
        rw [getD_set_self _ _ _ hvalid, Nat.testBit_lor, Nat.one_shiftLeft,
          Nat.testBit_two_pow_self]
        simp
      · apply ih _ _ _ _ _ hpos
        intro q hq
        rw [List.length_set]
        exact hlen q hq

theorem foldl_CreateFilterAddKey_sets (bloomHash : Key → Nat) (k bits off : Nat)
    (hbits : 0 < bits) (keys : List Key) :
    ∀ (d : List Nat),
      (∀ q, q < bits → off + q / 8 < d.length) →
      ∀ key ∈ keys,
        ∀ pos ∈ probePositions bits k (bloomHash key % 2 ^ 32)
            (bloomDelta (bloomHash key % 2 ^ 32)),
          bitmapBit (keys.foldl (CreateFilterAddKey bloomHash k bits off) d) off pos = true := by
  induction keys with
  | nil => intro d _ key hkey; cases hkey
  | cons key0 keys ih =>
      intro d hlen key hkey pos hpos
      rw [List.foldl_cons]
      rcases List.mem_cons.mp hkey with hkey | hkey
      · subst hkey
        apply bitmapBit_foldl_CreateFilterAddKey_mono
        rw [CreateFilterAddKey]
        exact CreateFilterLoopJ_sets bits off hbits k _ _ d hlen pos hpos
      · apply ih _ _ _ hkey _ hpos
        intro q hq
        rw [CreateFilterAddKey, length_CreateFilterLoopJ]
        exact hlen q hq

theorem KeyMayMatchLoop_eq_true (bits : Nat) (arr : List Nat) (j : Nat) :
    ∀ (h delta : Nat),
      (∀ pos ∈ probePositions bits j h delta, bitmapBit arr 0 pos = true) →
      KeyMayMatchLoop bits arr j h delta = true := by
  induction j with
  | zero => intro h delta _; rfl
  | succ j ih =>
      intro h delta hset
      have h0 : bitmapBit arr 0 (h % bits) = true :=
        hset _ (by rw [probePositions]; exact List.mem_cons_self _ _)
      rw [KeyMayMatchLoop]
      unfold bitmapBit at h0
      rw [Nat.zero_add] at h0
      rw [and_one_shiftLeft_beq_zero, h0]
      simp only [Bool.not_true, if_false]
      apply ih
      intro pos hpos
      exact hset _ (by rw [probePositions]; exact List.mem_cons_of_mem _ hpos)

theorem getD_CreateFilterLoopJ_of_untouched (bits off : Nat) (hbits : 0 < bits)
    (i : Nat) (hi : ∀ q, q < bits → off + q / 8 ≠ i) (j : Nat) :
    ∀ (h delta : Nat) (d : List Nat),
      (CreateFilterLoopJ bits off j h delta d).getD i 0 = d.getD i 0 := by
  induction j with
  | zero => intro h delta d; rfl
  | succ j ih =>
      intro h delta d
      rw [CreateFilterLoopJ, ih, getD_set_of_ne]
      exact hi _ (Nat.mod_lt _ hbits)

theorem getD_foldl_CreateFilterAddKey_of_untouched (bloomHash : Key → Nat)
    (k bits off : Nat) (hbits : 0 < bits) (i : Nat)
    (hi : ∀ q, q < bits → off + q / 8 ≠ i) (keys : List Key) :
    ∀ d : List Nat,
      (keys.foldl (CreateFilterAddKey bloomHash k bits off) d).getD i 0 = d.getD i 0 := by
  induction keys with
  | nil => intro d; rfl
  | cons key keys ih =>
      intro d
      rw [List.foldl_cons, ih, CreateFilterAddKey,
        getD_CreateFilterLoopJ_of_untouched bits off hbits i hi]

theorem take_set_of_le (l : List Nat) (i v n : Nat) (h : n ≤ i) :
    (l.set i v).take n = l.take n := by
  apply List.ext_getElem?
  intro j
  rw [List.getElem?_take, List.getElem?_take]
  split
  · next hj => rw [List.getElem?_set_ne (Nat.ne_of_gt (Nat.lt_of_lt_of_le hj h))]
  · rfl

theorem take_CreateFilterLoopJ (bits off n : Nat) (hn : n ≤ off) (j : Nat) :
    ∀ (h delta : Nat) (d : List Nat),
      (CreateFilterLoopJ bits off j h delta d).take n = d.take n := by
  induction j with
  | zero => intro h delta d; rfl
  | succ j ih =>
      intro h delta d
      rw [CreateFilterLoopJ, ih, take_set_of_le]
      exact Nat.le_trans hn (Nat.le_add_right _ _)

theorem take_foldl_CreateFilterAddKey (bloomHash : Key → Nat)
    (k bits off n : Nat) (hn : n ≤ off) (keys : List Key) :
    ∀ d : List Nat,
      (keys.foldl (CreateFilterAddKey bloomHash k bits off) d).take n = d.take n := by
  induction keys with
  | nil => intro d; rfl
  | cons key keys ih =>
      intro d
      rw [List.foldl_cons, ih, CreateFilterAddKey, take_CreateFilterLoopJ bits off n hn]

theorem k__eq_clamp (p : BloomFilterPolicy) :
    p.k_ = min 30 (max 1 (p.bits_per_key * 69 / 100)) := by
  by_cases h1 : p.bits_per_key * 69 / 100 < 1 <;>
    by_cases h2 : p.bits_per_key * 69 / 100 > 30 <;>
      simp [BloomFilterPolicy.k_, h1, h2] <;> omega

theorem k__le_30 (p : BloomFilterPolicy) : p.k_ ≤ 30 := by
  rw [k__eq_clamp]
  omega

theorem getD_append_replicate_last (dst : List Nat) (bytes kk : Nat) :
    (dst ++ List.replicate bytes 0 ++ [kk]).getD (dst.length + bytes) 0 = kk := by
  rw [List.getD_append_right _ _ _ _ (by simp)]
  simp

theorem KeyMayMatch_CreateFilter_aux (bloomHash : Key → Nat) (kk bytes : Nat)
    (hk30 : kk ≤ 30) (hbytes : 8 ≤ bytes) (keys : List Key) (key : Key)
    (hkey : key ∈ keys) :
    KeyMayMatch bloomHash key
      (keys.foldl (CreateFilterAddKey bloomHash kk (bytes * 8) 0)
        (List.replicate bytes 0 ++ [kk])) = true := by
  have hbits : 0 < bytes * 8 := by omega
  have hlen0 : (List.replicate bytes 0 ++ [kk]).length = bytes + 1 := by simp
  have hlenF :
      (keys.foldl (CreateFilterAddKey bloomHash kk (bytes * 8) 0)
        (List.replicate bytes 0 ++ [kk])).length = bytes + 1 := by
    rw [length_foldl_CreateFilterAddKey, hlen0]
  have hi : ∀ q, q < bytes * 8 → 0 + q / 8 ≠ bytes := by
    intro q hq
    omega
  have hkD :
      (keys.foldl (CreateFilterAddKey bloomHash kk (bytes * 8) 0)
        (List.replicate bytes 0 ++ [kk])).getD bytes 0 = kk := by
    rw [getD_foldl_CreateFilterAddKey_of_untouched bloomHash kk (bytes * 8) 0 hbits
      bytes hi]
    have h0 := getD_append_replicate_last [] bytes kk
    simp only [List.nil_append, List.length_nil, Nat.zero_add] at h0
    exact h0
  simp only [KeyMayMatch, hlenF]
  rw [if_neg (by omega)]
  simp only [Nat.add_sub_cancel]
  rw [hkD, if_neg (by omega)]
  apply KeyMayMatchLoop_eq_true
  intro pos hpos
  apply foldl_CreateFilterAddKey_sets bloomHash kk (bytes * 8) 0 hbits keys _ _ key hkey
    pos hpos
  intro q hq
  rw [hlen0]
  omega

/-- C1: Bloom filter round-trip has no false negatives: for every non-empty
list of keys and every key in that list, `KeyMayMatch(key, f)` returns true
when `f` is the filter string produced by `CreateFilter` over that list
(with the same `BloomFilterPolicy` instance, for any `bits_per_key`), and
this for every hash function, hence for the concrete `BloomHash`. -/
theorem C1_bloom_roundtrip_no_false_negative (bloomHash : Key → Nat)
    (p : BloomFilterPolicy) (keys : List Key) (key : Key) (hkey : key ∈ keys) :
    KeyMayMatch bloomHash key (CreateFilter p bloomHash keys []) = true := by
  simp only [CreateFilter, List.length_nil, List.nil_append]
  exact KeyMayMatch_CreateFilter_aux bloomHash p.k_ _ (k__le_30 p)
    (by split <;> omega) keys key hkey

/-- Witness for C1 at a concrete policy, hash function and key list. -/
theorem C1_witness :
    [1] ∈ [[1], [2, 3]] ∧
      KeyMayMatch wHash [1] (CreateFilter ⟨10⟩ wHash [[1], [2, 3]] []) = true :=
  ⟨by decide,
    C1_bloom_roundtrip_no_false_negative wHash ⟨10⟩ [[1], [2, 3]] [1] (by decide)⟩

/-- C10: `CreateFilter` only appends to `dst` and leaves the first
`init_size` bytes of `dst` unchanged: for `n` keys it appends exactly
`bytes + 1` characters, where `bytes = ceil(max(64, n * bits_per_key) / 8)`;
the last appended byte equals the probe count `k_`, and `k_` equals
`floor(bits_per_key * 0.69)` clamped to the range `[1, 30]`. -/
theorem C10_CreateFilter_appends_and_frame (p : BloomFilterPolicy)
    (bloomHash : Key → Nat) (keys : List Key) (dst : List Nat) :
    (CreateFilter p bloomHash keys dst).length
        = dst.length + ((max 64 (keys.length * p.bits_per_key) + 7) / 8 + 1) ∧
    (CreateFilter p bloomHash keys dst).take dst.length = dst ∧
    (CreateFilter p bloomHash keys dst).getD
        (dst.length + (max 64 (keys.length * p.bits_per_key) + 7) / 8) 0 = p.k_ ∧
    p.k_ = min 30 (max 1 (p.bits_per_key * 69 / 100)) := by
  have hif : (if keys.length * p.bits_per_key < 64 then 64
      else keys.length * p.bits_per_key) = max 64 (keys.length * p.bits_per_key) := by
    split <;> omega
  refine ⟨?_, ?_, ?_, k__eq_clamp p⟩
  · simp only [CreateFilter, hif]
    rw [length_foldl_CreateFilterAddKey]
    simp [Nat.add_assoc]
  · simp only [CreateFilter, hif]
    rw [take_foldl_CreateFilterAddKey bloomHash p.k_ _ _ _ (Nat.le_refl _),
      List.take_append_of_le_length (by simp),
      List.take_append_of_le_length (Nat.le_refl _), List.take_length]
  · simp only [CreateFilter, hif]
    rw [getD_foldl_CreateFilterAddKey_of_untouched bloomHash p.k_ _ _ (by omega) _
      (by intro q hq; omega), getD_append_replicate_last]

/-! ### BuildTable lemmas -/

theorem foldl_last_key (l : List (Key × Key)) :
    ∀ init : Option Key, l ≠ [] →
      l.foldl (fun _ kv => some kv.fst) init = l.getLast?.map Prod.fst := by
  induction l with
  | nil => intro init h; exact absurd rfl h
  | cons a l ih =>
      intro init _
      cases l with
      | nil => rfl
      | cons b l' =>
          rw [List.foldl_cons, ih _ (List.cons_ne_nil _ _), List.getLast?_cons_cons]

/-- C2: for every non-empty, ascending-ordered input iterator, a successful
`BuildTable` sets `meta->smallest` to the first key yielded by the iterator,
`meta->largest` to the last key yielded, and `meta->file_size` to the
builder's file size, which is strictly greater than zero (the positivity of
`builder->FileSize()` after a successful `Finish` is the code's own
assertion at builder.cc:57). -/
theorem C2_BuildTable_success_meta (env : BuildEnv) (iter : InputIter)
    (meta0 : FileMetaData) (hne : iter.entries ≠ [])
    (hasc : ascendingEntries iter.entries = true)
    (hfs : 0 < env.builderFileSize)
    (hok : (BuildTable env iter meta0).status = .ok) :
    (BuildTable env iter meta0).meta.smallest = iter.entries.head?.map Prod.fst ∧
    (BuildTable env iter meta0).meta.largest = iter.entries.getLast?.map Prod.fst ∧
    (BuildTable env iter meta0).meta.file_size = env.builderFileSize ∧
    0 < (BuildTable env iter meta0).meta.file_size := by
  have hfold := foldl_last_key iter.entries
    (iter.entries.head?.map Prod.fst) hne
  rcases hent : iter.entries with _ | ⟨⟨k, v⟩, rest⟩
  · exact absurd hent hne
  · rw [hent] at hfold
    cases hnf : env.newFileStatus with
    | err e => simp_all [BuildTable, Status.isOk]
    | ok =>
        cases hf : env.finishStatus <;>
          cases hsy : env.syncStatus <;>
            cases hcl : env.closeStatus <;>
              cases hti : env.tableIterStatus <;>
                cases hfin : iter.finalStatus <;>
                  simp_all [BuildTable, Status.isOk]

/-- C9: for an input iterator that yields no entries and whose status is ok,
`BuildTable` returns OK with `meta->file_size == 0`, never creates a table
builder or writes the file, and still issues a delete of the would-be table
file name. -/
theorem C9_BuildTable_empty_iterator (env : BuildEnv) (iter : InputIter)
    (meta0 : FileMetaData) (he : iter.entries = [])
    (hst : iter.finalStatus = .ok) :
    (BuildTable env iter meta0).status = .ok ∧
    (BuildTable env iter meta0).meta.file_size = 0 ∧
    (BuildTable env iter meta0).builderCreated = false ∧
    (BuildTable env iter meta0).syncCalled = false ∧
    (BuildTable env iter meta0).fileDeleted = true := by
  simp [BuildTable, he, hst, Status.isOk]

/-- C3: whenever `BuildTable` returns a non-OK status arising after file
creation succeeded (builder `Finish` failure, `Sync` or `Close` failure,
table-cache validation failure, or a non-ok input-iterator status), the
output table file has been deleted before returning, and the returned
status is that failure. -/
theorem C3_BuildTable_failure_deletes (env : BuildEnv) (iter : InputIter)
    (meta0 : FileMetaData) (hnf : env.newFileStatus = .ok)
    (hfail : (BuildTable env iter meta0).status ≠ .ok) :
    (BuildTable env iter meta0).fileDeleted = true ∧
    ((BuildTable env iter meta0).status = iter.finalStatus ∨
     (BuildTable env iter meta0).status = env.finishStatus ∨
     (BuildTable env iter meta0).status = env.syncStatus ∨
     (BuildTable env iter meta0).status = env.closeStatus ∨
     (BuildTable env iter meta0).status = env.tableIterStatus) := by
  rcases hent : iter.entries with _ | ⟨⟨k, v⟩, rest⟩
  · cases hfin : iter.finalStatus <;> simp_all [BuildTable, Status.isOk]
  · cases hf : env.finishStatus <;>
      cases hsy : env.syncStatus <;>
        cases hcl : env.closeStatus <;>
          cases hti : env.tableIterStatus <;>
            cases hfin : iter.finalStatus <;>
              simp_all [BuildTable, Status.isOk]

/-- C4: when writing, syncing and closing the table file all succeeded,
`BuildTable` validates the table by opening an iterator on it through the
table cache; the status of that iterator becomes `BuildTable`'s status, so a
table that cannot be re-opened and iterated makes the build fail (and the
file is then deleted). -/
theorem C4_BuildTable_validates (env : BuildEnv) (iter : InputIter)
    (meta0 : FileMetaData) (hne : iter.entries ≠ [])
    (hnf : env.newFileStatus = .ok) (hf : env.finishStatus = .ok)
    (hsy : env.syncStatus = .ok) (hcl : env.closeStatus = .ok)
    (hit : iter.finalStatus = .ok) :
    (BuildTable env iter meta0).validateCalled = true ∧
    (BuildTable env iter meta0).status = env.tableIterStatus ∧
    (env.tableIterStatus ≠ .ok → (BuildTable env iter meta0).fileDeleted = true) := by
  rcases hent : iter.entries with _ | ⟨⟨k, v⟩, rest⟩
  · exact absurd hent hne
  · cases hti : env.tableIterStatus <;> simp_all [BuildTable, Status.isOk]

/-- C5: on a successful `Finish`, `BuildTable` syncs the output file, and it
only proceeds to `Close` when `Sync` returned OK; a failure of either `Sync`
or `Close` makes `BuildTable` return that failure and the file is
deleted. -/
theorem C5_BuildTable_sync_close (env : BuildEnv) (iter : InputIter)
    (meta0 : FileMetaData) (hne : iter.entries ≠ [])
    (hnf : env.newFileStatus = .ok) (hf : env.finishStatus = .ok)
    (hit : iter.finalStatus = .ok) :
    (BuildTable env iter meta0).syncCalled = true ∧
    ((BuildTable env iter meta0).closeCalled = true ↔ env.syncStatus = .ok) ∧
    (env.syncStatus ≠ .ok →
       (BuildTable env iter meta0).status = env.syncStatus ∧
       (BuildTable env iter meta0).fileDeleted = true) ∧
    (env.syncStatus = .ok → env.closeStatus ≠ .ok →
       (BuildTable env iter meta0).status = env.closeStatus ∧
       (BuildTable env iter meta0).fileDeleted = true) := by
  rcases hent : iter.entries with _ | ⟨⟨k, v⟩, rest⟩
  · exact absurd hent hne
  · cases hsy : env.syncStatus <;>
      cases hcl : env.closeStatus <;>
        cases hti : env.tableIterStatus <;>
          simp_all [BuildTable, Status.isOk]

/-- Witness for C2: a concrete successful build over two ascending
entries. -/
theorem C2_witness :
    (wIter.entries ≠ [] ∧ ascendingEntries wIter.entries = true ∧
      0 < wEnvOk.builderFileSize ∧ (BuildTable wEnvOk wIter wMeta).status = .ok) ∧
    ((BuildTable wEnvOk wIter wMeta).meta.smallest = wIter.entries.head?.map Prod.fst ∧
     (BuildTable wEnvOk wIter wMeta).meta.largest = wIter.entries.getLast?.map Prod.fst ∧
     (BuildTable wEnvOk wIter wMeta).meta.file_size = wEnvOk.builderFileSize ∧
     0 < (BuildTable wEnvOk wIter wMeta).meta.file_size) :=
  ⟨⟨by decide, by decide, by decide, by decide⟩,
    C2_BuildTable_success_meta wEnvOk wIter wMeta (by decide) (by decide)
      (by decide) (by decide)⟩

/-- Witness for C9: a concrete empty-iterator build. -/
theorem C9_witness :
    (wIterEmpty.entries = [] ∧ wIterEmpty.finalStatus = .ok) ∧
    ((BuildTable wEnvOk wIterEmpty wMeta).status = .ok ∧
     (BuildTable wEnvOk wIterEmpty wMeta).meta.file_size = 0 ∧
     (BuildTable wEnvOk wIterEmpty wMeta).builderCreated = false ∧
     (BuildTable wEnvOk wIterEmpty wMeta).syncCalled = false ∧
     (BuildTable wEnvOk wIterEmpty wMeta).fileDeleted = true) :=
  ⟨⟨by decide, by decide⟩,
    C9_BuildTable_empty_iterator wEnvOk wIterEmpty wMeta (by decide) (by decide)⟩

/-- Witness for C3: a concrete build whose `Sync` fails. -/
theorem C3_witness :
    (wEnvSyncErr.newFileStatus = .ok ∧
      (BuildTable wEnvSyncErr wIter wMeta).status ≠ .ok) ∧
    ((BuildTable wEnvSyncErr wIter wMeta).fileDeleted = true ∧
     ((BuildTable wEnvSyncErr wIter wMeta).status = wIter.finalStatus ∨
      (BuildTable wEnvSyncErr wIter wMeta).status = wEnvSyncErr.finishStatus ∨
      (BuildTable wEnvSyncErr wIter wMeta).status = wEnvSyncErr.syncStatus ∨
      (BuildTable wEnvSyncErr wIter wMeta).status = wEnvSyncErr.closeStatus ∨
      (BuildTable wEnvSyncErr wIter wMeta).status = wEnvSyncErr.tableIterStatus)) :=
  ⟨⟨by decide, by decide⟩,
    C3_BuildTable_failure_deletes wEnvSyncErr wIter wMeta (by decide) (by decide)⟩

/-- Witness for C4: a concrete build whose validation iterator fails. -/
theorem C4_witness :
    (wIter.entries ≠ [] ∧ wEnvValidateErr.newFileStatus = .ok ∧
      wEnvValidateErr.finishStatus = .ok ∧ wEnvValidateErr.syncStatus = .ok ∧
      wEnvValidateErr.closeStatus = .ok ∧ wIter.finalStatus = .ok) ∧
    ((BuildTable wEnvValidateErr wIter wMeta).validateCalled = true ∧
     (BuildTable wEnvValidateErr wIter wMeta).status = wEnvValidateErr.tableIterStatus ∧
     (wEnvValidateErr.tableIterStatus ≠ .ok →
       (BuildTable wEnvValidateErr wIter wMeta).fileDeleted = true)) :=
  ⟨⟨by decide, by decide, by decide, by decide, by decide, by decide⟩,
    C4_BuildTable_validates wEnvValidateErr wIter wMeta (by decide) (by decide)
      (by decide) (by decide) (by decide) (by decide)⟩

/-- Witness for C5: a concrete build whose `Sync` fails, so `Close` is not
reached. -/
theorem C5_witness :
    (wIter.entries ≠ [] ∧ wEnvSyncErr.newFileStatus = .ok ∧
      wEnvSyncErr.finishStatus = .ok ∧ wIter.finalStatus = .ok) ∧
    ((BuildTable wEnvSyncErr wIter wMeta).syncCalled = true ∧
     ((BuildTable wEnvSyncErr wIter wMeta).closeCalled = true ↔
        wEnvSyncErr.syncStatus = .ok) ∧
     (wEnvSyncErr.syncStatus ≠ .ok →
        (BuildTable wEnvSyncErr wIter wMeta).status = wEnvSyncErr.syncStatus ∧
        (BuildTable wEnvSyncErr wIter wMeta).fileDeleted = true) ∧
     (wEnvSyncErr.syncStatus = .ok → wEnvSyncErr.closeStatus ≠ .ok →
        (BuildTable wEnvSyncErr wIter wMeta).status = wEnvSyncErr.closeStatus ∧
        (BuildTable wEnvSyncErr wIter wMeta).fileDeleted = true)) :=
  ⟨⟨by decide, by decide, by decide, by decide⟩,
    C5_BuildTable_sync_close wEnvSyncErr wIter wMeta (by decide) (by decide)
      (by decide) (by decide)⟩

/-! ### Coordinator lemmas -/

theorem MakeRoomForWriteLoop_delayed_sleeps (obsList : List RoomObs) :
    ∀ (force : Bool) (sleeps : Nat),
      (MakeRoomForWriteLoop force true sleeps obsList).2 = sleeps := by
  induction obsList with
  | nil => intro force sleeps; rfl
  | cons obs rest ih =>
      intro force sleeps
      rw [MakeRoomForWriteLoop]
      split
      · rfl
      · split
        · rfl
        · split
          · next hc => simp at hc
          · split
            · exact ih _ _
            · split
              · exact ih _ _
              · exact ih _ _

theorem MakeRoomForWriteLoop_sleeps_bound (obsList : List RoomObs) :
    ∀ (force : Bool) (sleeps : Nat),
      (MakeRoomForWriteLoop force false sleeps obsList).2 ≤ sleeps + 1 := by
  induction obsList with
  | nil => intro force sleeps; exact Nat.le_succ _
  | cons obs rest ih =>
      intro force sleeps
      rw [MakeRoomForWriteLoop]
      split
      · exact Nat.le_succ _
      · split
        · exact Nat.le_succ _
        · split
          · rw [MakeRoomForWriteLoop_delayed_sleeps]
          · split
            · exact ih _ _
            · split
              · exact ih _ _
              · exact ih _ _

/-- C8: within a single invocation of `MakeRoomForWrite` for one write, the
one-millisecond L0-slowdown sleep is taken at most once, regardless of how
many times the internal loop iterates. -/
theorem C8_MakeRoomForWrite_sleeps_at_most_once (force : Bool)
    (obsList : List RoomObs) :
    (MakeRoomForWrite force obsList).2 ≤ 1 := by
  rw [MakeRoomForWrite]
  exact MakeRoomForWriteLoop_sleeps_bound obsList force 0

/-- C6: `CompactMemTable` switches to a new log-file/memtable pair and
writes a new descriptor if and only if the flush succeeds (on success `imm`
is cleared and obsolete files deleted); on any failure the status is
recorded in `bg_error_` and subsequent write attempts fail with that
error. -/
theorem C6_CompactMemTable_switch_iff_success (st : CoordState)
    (newLog : Nat) (s : Status) (himm : st.imm = true) :
    (s.isOk = true →
       (CompactMemTable st newLog s).imm = false ∧
       (CompactMemTable st newLog s).logfile_number = newLog ∧
       (CompactMemTable st newLog s).descriptorLogNumbers
           = st.descriptorLogNumbers ++ [newLog] ∧
       (CompactMemTable st newLog s).obsoleteFilesDeleted = true ∧
       (CompactMemTable st newLog s).bg_error_ = st.bg_error_) ∧
    (s.isOk = false →
       (CompactMemTable st newLog s).imm = true ∧
       (CompactMemTable st newLog s).logfile_number = st.logfile_number ∧
       (CompactMemTable st newLog s).descriptorLogNumbers = st.descriptorLogNumbers ∧
       (CompactMemTable st newLog s).bg_error_ = s ∧
       (∀ (force memRoom : Bool) (l0 : Nat) (immP : Bool),
          (MakeRoomForWrite force
            [⟨(CompactMemTable st newLog s).bg_error_, memRoom, l0, immP⟩]).1
            = RoomOutcome.err s)) := by
  cases hs : s <;>
    simp_all [CompactMemTable, MakeRoomForWrite, MakeRoomForWriteLoop, Status.isOk]

/-- Witness for C6: a failed flush on a concrete coordinator state latches
the error, and a subsequent write attempt fails with it; the success case
is exercised on the same state. -/
theorem C6_witness :
    wCoordState.imm = true ∧
    (((Status.err 9).isOk = true →
       (CompactMemTable wCoordState 6 (.err 9)).imm = false ∧
       (CompactMemTable wCoordState 6 (.err 9)).logfile_number = 6 ∧
       (CompactMemTable wCoordState 6 (.err 9)).descriptorLogNumbers
           = wCoordState.descriptorLogNumbers ++ [6] ∧
       (CompactMemTable wCoordState 6 (.err 9)).obsoleteFilesDeleted = true ∧
       (CompactMemTable wCoordState 6 (.err 9)).bg_error_ = wCoordState.bg_error_) ∧
     ((Status.err 9).isOk = false →
       (CompactMemTable wCoordState 6 (.err 9)).imm = true ∧
       (CompactMemTable wCoordState 6 (.err 9)).logfile_number
           = wCoordState.logfile_number ∧
       (CompactMemTable wCoordState 6 (.err 9)).descriptorLogNumbers
           = wCoordState.descriptorLogNumbers ∧
       (CompactMemTable wCoordState 6 (.err 9)).bg_error_ = .err 9 ∧
       (∀ (force memRoom : Bool) (l0 : Nat) (immP : Bool),
          (MakeRoomForWrite force
            [⟨(CompactMemTable wCoordState 6 (.err 9)).bg_error_, memRoom, l0, immP⟩]).1
            = RoomOutcome.err (.err 9)))) :=
  ⟨by decide, C6_CompactMemTable_switch_iff_success wCoordState 6 (.err 9) (by decide)⟩

theorem MaybeScheduleCompaction_idem (st : SchedState) :
    MaybeScheduleCompaction (MaybeScheduleCompaction st) = MaybeScheduleCompaction st := by
  by_cases h1 : st.background_compaction_scheduled_ = true
  · simp [MaybeScheduleCompaction, h1]
  · have h1' : st.background_compaction_scheduled_ = false := by
      simpa using h1
    by_cases h2 : st.shutting_down_ = true
    · simp [MaybeScheduleCompaction, h1', h2]
    · have h2' : st.shutting_down_ = false := by simpa using h2
      by_cases h3 : hasCompactionWork st = true
      · simp [MaybeScheduleCompaction, h1', h2', h3]
      · have h3' : hasCompactionWork st = false := by simpa using h3
        simp [MaybeScheduleCompaction, h1', h2', h3']

theorem MaybeScheduleCompaction_change (st : SchedState)
    (hch : MaybeScheduleCompaction st ≠ st) :
    hasCompactionWork st = true ∧
    st.background_compaction_scheduled_ = false := by
  by_cases h1 : st.background_compaction_scheduled_ = true
  · exact absurd (by simp [MaybeScheduleCompaction, h1]) hch
  · have h1' : st.background_compaction_scheduled_ = false := by
      simpa using h1
    by_cases h2 : st.shutting_down_ = true
    · exact absurd (by simp [MaybeScheduleCompaction, h1', h2]) hch
    · have h2' : st.shutting_down_ = false := by simpa using h2
      by_cases h3 : hasCompactionWork st = true
      · exact ⟨h3, h1'⟩
      · have h3' : hasCompactionWork st = false := by simpa using h3
        exact absurd (by simp [MaybeScheduleCompaction, h1', h2', h3']) hch

theorem schedInv_MaybeSchedule (st : SchedState)
    (h : st.tasksInFlight = if st.background_compaction_scheduled_ then 1 else 0) :
    (MaybeScheduleCompaction st).tasksInFlight =
      if (MaybeScheduleCompaction st).background_compaction_scheduled_ then 1 else 0 := by
  by_cases h1 : st.background_compaction_scheduled_ = true
  · simpa [MaybeScheduleCompaction, h1] using h
  · have h1' : st.background_compaction_scheduled_ = false := by
      simpa using h1
    by_cases h2 : st.shutting_down_ = true
    · simpa [MaybeScheduleCompaction, h1', h2] using h
    · have h2' : st.shutting_down_ = false := by simpa using h2
      by_cases h3 : hasCompactionWork st = true
      · rw [h1'] at h
        simp [MaybeScheduleCompaction, h1', h2', h3, h]
      · have h3' : hasCompactionWork st = false := by simpa using h3
        simpa [MaybeScheduleCompaction, h1', h2', h3'] using h

theorem schedInv_reachable (st : SchedState) (h : SchedReachable st) :
    st.tasksInFlight = if st.background_compaction_scheduled_ then 1 else 0 := by
  induction h with
  | init => rfl
  | step st' e hr ih =>
      cases e with
      | maybeSchedule => exact schedInv_MaybeSchedule st' ih
      | finishBackgroundWork i m n =>
          by_cases h1 : st'.background_compaction_scheduled_ = true
          · have hmain : schedStep st' (SchedEvent.finishBackgroundWork i m n) =
                MaybeScheduleCompaction
                  { st' with
                    background_compaction_scheduled_ := false,
                    tasksInFlight := st'.tasksInFlight - 1,
                    imm := i, manual_compaction_ := m, versionNeedsCompaction := n } := by
              simp [schedStep, BackgroundCallFinish, h1]
            rw [hmain]
            apply schedInv_MaybeSchedule
            rw [h1] at ih
            simp [ih]
          · have hmain : schedStep st' (SchedEvent.finishBackgroundWork i m n) = st' := by
              simp [schedStep, BackgroundCallFinish, h1]
            rw [hmain]
            exact ih
      | setWork i m n => simpa [schedStep] using ih
      | beginShutdown => simpa [schedStep] using ih

/-- C7: `MaybeScheduleCompaction` is idempotent; in every reachable
coordinator state it schedules background work only when work exists (`imm`
non-null, a manual compaction pending, or the current version needs
compaction) and no background task is already scheduled, so
`background_compaction_scheduled_` guarantees at most one background worker
task is scheduled or running at a time. -/
theorem C7_MaybeScheduleCompaction_single_worker (st : SchedState)
    (h : SchedReachable st) :
    MaybeScheduleCompaction (MaybeScheduleCompaction st) = MaybeScheduleCompaction st ∧
    (MaybeScheduleCompaction st ≠ st →
       hasCompactionWork st = true ∧
       st.background_compaction_scheduled_ = false) ∧
    st.tasksInFlight = (if st.background_compaction_scheduled_ then 1 else 0) ∧
    st.tasksInFlight ≤ 1 := by
  refine ⟨MaybeScheduleCompaction_idem st, MaybeScheduleCompaction_change st, ?_, ?_⟩
  · exact schedInv_reachable st h
  · rw [schedInv_reachable st h]
    split <;> omega

/-- Witness for C7 at the initial coordinator state. -/
theorem C7_witness :
    SchedReachable initSchedState ∧
    (MaybeScheduleCompaction (MaybeScheduleCompaction initSchedState)
        = MaybeScheduleCompaction initSchedState ∧
     (MaybeScheduleCompaction initSchedState ≠ initSchedState →
        hasCompactionWork initSchedState = true ∧
        initSchedState.background_compaction_scheduled_ = false) ∧
     initSchedState.tasksInFlight
        = (if initSchedState.background_compaction_scheduled_ then 1 else 0) ∧
     initSchedState.tasksInFlight ≤ 1) :=
  ⟨SchedReachable.init,
    C7_MaybeScheduleCompaction_single_worker initSchedState SchedReachable.init⟩

end LevelDB
